import Mathlib

/-!
Shallow embedding of the update_ip IP-resolution core
(src/v0.1/update_ip/src/ip_services/mod.rs and src/v0.1/update_ip/src/requests.rs).

Rust strings become Lean String, Vec becomes List, Option becomes Option,
Result becomes Except. The random draw of rand::thread_rng().gen_range(0..length)
is modelled by an explicit draw parameter reduced modulo the requested length,
so that every draw value in the range is representable. Async effects (the
actual network transport) are modelled by explicit outcome parameters.
-/

/-- Modelled from the spec: the crate type_flyweight module is not under src.
Per spec section 3, RunResult (the IpServiceResult of the source) is
a record of service, address, prevAddress, addressChanged and an ordered
error sequence. -/
structure IpServiceResult where
  service : Option String
  address : Option String
  prev_address : Option String
  address_changed : Bool
  errors : List String
deriving DecidableEq, Repr

/-- Modelled from the spec: the crate type_flyweight module is not under src.
Per spec section 3 a RunResult is created fresh each run, with empty optional
fields, addressChanged false and no errors. -/
def IpServiceResult.new : IpServiceResult :=
  { service := none
    address := none
    prev_address := none
    address_changed := false
    errors := [] }

/-- Modelled from the spec: the crate type_flyweight module is not under src.
UpdateIpResults carries the last run state; the IP-resolution core only
reads its ip_service_result field (the last RunResult). -/
structure UpdateIpResults where
  ip_service_result : IpServiceResult
deriving DecidableEq, Repr

/-- Modelled from the spec: the crate type_flyweight module is not under src.
Per spec sections 3 and 6, configuration supplies an ordered list of
ServiceEndpoint pairs (url, responseKind); the source stores them as
config.ip_services, a vector of (String, String) pairs. -/
structure Config where
  ip_services : List (String × String)
deriving DecidableEq, Repr

/-- Embeds get_ip_service of src/v0.1/update_ip/src/ip_services/mod.rs.
The draw argument models the value produced by rng.gen_range(0..length):
it is taken modulo the length the source passes to gen_range, so every
draw is in range and every in-range value is reachable. -/
def get_ip_service (results : UpdateIpResults) (config : Config) (draw : Nat) :
    Option (String × String) :=
  if config.ip_services.length = 0 then
    none
  else if config.ip_services.length = 1 then
    config.ip_services[0]?
  else
    let prev_index : Option Nat :=
      match results.ip_service_result.service with
      | some service => config.ip_services.findIdx? (fun p => p.1 == service)
      | none => none
    let length : Nat :=
      match prev_index with
      | some _ => config.ip_services.length - 1
      | none => config.ip_services.length
    let random_index := draw % length
    let random_index :=
      match prev_index with
      | some index => if random_index ≥ index then random_index + 1 else random_index
      | none => random_index
    config.ip_services[random_index]?

/-- Embeds has_address_changed of src/v0.1/update_ip/src/ip_services/mod.rs. -/
def has_address_changed (results : UpdateIpResults)
    (ip_service_result : IpServiceResult) : Bool :=
  match results.ip_service_result.address, ip_service_result.address with
  | some prev_ip, some curr_ip => prev_ip != curr_ip
  | none, some _curr_ip => true
  | _, _ => false

/-- Modelled from the spec: the address_as_body module is not under src.
Per spec sections 3 (RunResult invariant) and 4.4, the lookup sets address
only on a successful error-free transport call, to the trimmed response
body; on any failure it appends the error string to errors and leaves
address empty; no other field of the result is touched. The transport
outcome is passed in explicitly. -/
def request_address_as_response_body (outcome : Except String String)
    (ip_service_result : IpServiceResult) : IpServiceResult :=
  match outcome with
  | Except.ok addr => { ip_service_result with address := some addr }
  | Except.error e =>
      { ip_service_result with errors := ip_service_result.errors ++ [e] }

/-- Embeds request_ip of src/v0.1/update_ip/src/ip_services/mod.rs.
The outcome argument models the async transport result consumed by the
address_as_body module; draw models the random draw of get_ip_service. -/
def request_ip (outcome : Except String String) (draw : Nat)
    (results : UpdateIpResults) (config : Config) : IpServiceResult :=
  let ip_service_result :=
    { IpServiceResult.new with
      prev_address :=
        match results.ip_service_result.address with
        | some address => some address
        | _ => results.ip_service_result.prev_address }
  match get_ip_service results config draw with
  | none =>
      { ip_service_result with
        errors := ip_service_result.errors ++ ["failed to find ip service"] }
  | some (ip_service, _response_type) =>
      let ip_service_result := { ip_service_result with service := some ip_service }
      let ip_service_result := request_address_as_response_body outcome ip_service_result
      { ip_service_result with
        address_changed := has_address_changed results ip_service_result }

/-- Embeds the http::Uri fields read by requests.rs: host, scheme and
explicit port of a parsed request URI, each optional. -/
structure Uri where
  host : Option String
  scheme : Option String
  port : Option Nat
deriving DecidableEq, Repr

/-- Embeds create_host_and_authority of src/v0.1/update_ip/src/requests.rs.
The source reads req.uri(); the request wrapper adds nothing, so the
embedding takes the URI directly. http::uri::Scheme::HTTPS.as_str() is the
string https. -/
def create_host_and_authority (uri : Uri) : Option (String × String) :=
  match uri.host with
  | none => none
  | some host =>
    let scheme :=
      match uri.scheme with
      | some s => s
      | none => "https"
    let port :=
      match uri.port with
      | some p => toString p
      | none =>
        match scheme with
        | "http" => "80"
        | _ => "443"
    let authority := host ++ ":" ++ port
    some (host, authority)

/-- Outcome of aggregating a hyper response body and reading it as text,
the two fallible steps of response_body_to_string: collect can fail,
io::read_to_string can fail, otherwise the body is a text string. -/
inductive BodyOutcome where
  | collectErr (e : String)
  | readErr (e : String)
  | text (s : String)
deriving DecidableEq, Repr

/-- Embeds the hyper Response fields read by requests.rs: body outcome,
headers as (name, optional text value) pairs in response order (a none
value models a header value that is not representable as text), and the
status code. -/
structure Response where
  body : BodyOutcome
  headers : List (String × Option String)
  status : Nat
deriving DecidableEq, Repr

/-- Embeds Rust str::trim as used by response_body_to_string: removes
leading and trailing whitespace characters. Whitespace is modelled by
Char.isWhitespace (space, tab, carriage return, newline), which covers the
whitespace of the plain-text IP bodies the source handles. -/
def strTrim (s : String) : String :=
  String.mk (((s.data.dropWhile Char.isWhitespace).reverse.dropWhile
    Char.isWhitespace).reverse)

/-- Embeds response_body_to_string of src/v0.1/update_ip/src/requests.rs:
a collect failure or a read failure is returned as its error string,
otherwise the body text is returned trimmed. -/
def response_body_to_string (response : Response) : Except String String :=
  match response.body with
  | BodyOutcome.collectErr e => Except.error e
  | BodyOutcome.readErr e => Except.error e
  | BodyOutcome.text s => Except.ok (strTrim s)

/-- Embeds the header loop of get_headers of
src/v0.1/update_ip/src/requests.rs: a header whose value converts to text
is pushed, any other header is skipped with continue. -/
def get_headers_loop : List (String × Option String) → List (String × String)
  | [] => []
  | (key, value) :: rest =>
    match value with
    | some v => (key, v) :: get_headers_loop rest
    | none => get_headers_loop rest

/-- Embeds get_headers of src/v0.1/update_ip/src/requests.rs. -/
def get_headers (res : Response) : List (String × String) :=
  get_headers_loop res.headers

/-- UTF-8 encoding of one character, the byte view Rust str::as_bytes
exposes. -/
def utf8Bytes (c : Char) : List Nat :=
  let v := c.toNat
  if v < 0x80 then [v]
  else if v < 0x800 then [0xC0 + v / 64, 0x80 + v % 64]
  else if v < 0x10000 then [0xE0 + v / 4096, 0x80 + v / 64 % 64, 0x80 + v % 64]
  else [0xF0 + v / 262144, 0x80 + v / 4096 % 64, 0x80 + v / 64 % 64, 0x80 + v % 64]

/-- UTF-8 bytes of a string, as Rust str::as_bytes. -/
def strBytes (s : String) : List Nat := (s.data.map utf8Bytes).flatten

/-- The standard base64 alphabet of RFC 4648. -/
def base64Alphabet : List Char :=
  "ABCDEFGHIJKLMNOPQRSTUVWXYZabcdefghijklmnopqrstuvwxyz0123456789+/".data

/-- The character of the standard base64 alphabet at a 6-bit index. -/
def b64c (n : Nat) : Char := base64Alphabet.getD n '='

/-- Standard base64 with padding, RFC 4648 section 4, the encoding the
base64 crate general_purpose::STANDARD engine implements. -/
def base64Encode : List Nat → String
  | [] => ""
  | [b1] => String.mk [b64c (b1 / 4), b64c (b1 % 4 * 16)] ++ "=="
  | [b1, b2] =>
    String.mk [b64c (b1 / 4), b64c (b1 % 4 * 16 + b2 / 16), b64c (b2 % 16 * 4)] ++ "="
  | b1 :: b2 :: b3 :: rest =>
    String.mk [b64c (b1 / 4), b64c (b1 % 4 * 16 + b2 / 16),
      b64c (b2 % 16 * 4 + b3 / 64), b64c (b3 % 64)] ++ base64Encode rest

/-- Embeds the returned expression of get_https_dyndns2_subset_request of
src/v0.1/update_ip/src/requests.rs: the function returns the update URL
concatenated from its parameters verbatim. -/
def get_https_dyndns2_subset_request (service_domain ip_addr hostname
    _username _password : String) : String :=
  "https://" ++ service_domain ++ "/nic/update?hostname=" ++ hostname
    ++ "&myip=" ++ ip_addr

/-- Modelled from the spec: the auth computation inside
get_https_dyndns2_subset_request references an out-of-scope domain value
and undeclared names (uri_str, general_purpose, results), so the source
body does not name its own username and password parameters; per spec
sections 4.5 and 9 the intended Basic-auth value is the string Basic
followed by the standard base64 of username, a colon and password. -/
def dyndns2_basic_auth (username password : String) : String :=
  "Basic " ++ base64Encode (strBytes (username ++ ":" ++ password))

/-! Helper lemmas about get_ip_service, shared by the claim theorems. -/

theorem get_ip_service_nil (results : UpdateIpResults) (config : Config)
    (draw : Nat) (h : config.ip_services = []) :
    get_ip_service results config draw = none := by
  simp [get_ip_service, h]

theorem get_ip_service_singleton (results : UpdateIpResults) (config : Config)
    (draw : Nat) (e : String × String) (h : config.ip_services = [e]) :
    get_ip_service results config draw = some e := by
  simp [get_ip_service, h]

theorem get_ip_service_some_of_ne_nil (results : UpdateIpResults)
    (config : Config) (draw : Nat) (h : config.ip_services ≠ []) :
    ∃ p, get_ip_service results config draw = some p := by
  have hlen : 0 < config.ip_services.length := List.length_pos.mpr h
  have h0 : ¬ config.ip_services.length = 0 := by omega
  by_cases h1 : config.ip_services.length = 1
  · simp only [get_ip_service, if_neg h0, if_pos h1]
    exact ⟨_, List.getElem?_eq_getElem hlen⟩
  · cases hs : results.ip_service_result.service with
    | none =>
      simp only [get_ip_service, if_neg h0, if_neg h1, hs]
      exact ⟨_, List.getElem?_eq_getElem (Nat.mod_lt _ hlen)⟩
    | some s =>
      cases hi : config.ip_services.findIdx? (fun p => p.1 == s) with
      | none =>
        simp only [get_ip_service, if_neg h0, if_neg h1, hs, hi]
        exact ⟨_, List.getElem?_eq_getElem (Nat.mod_lt _ hlen)⟩
      | some i =>
        have hidx : draw % (config.ip_services.length - 1) <
            config.ip_services.length - 1 := Nat.mod_lt _ (by omega)
        simp only [get_ip_service, if_neg h0, if_neg h1, hs, hi]
        by_cases hge : draw % (config.ip_services.length - 1) ≥ i
        · rw [if_pos hge]
          exact ⟨_, List.getElem?_eq_getElem (by omega)⟩
        · rw [if_neg hge]
          exact ⟨_, List.getElem?_eq_getElem (by omega)⟩

theorem get_ip_service_matched (results : UpdateIpResults) (config : Config)
    (s : String) (i r : Nat)
    (h2 : 2 ≤ config.ip_services.length)
    (hs : results.ip_service_result.service = some s)
    (hi : config.ip_services.findIdx? (fun p => p.1 == s) = some i)
    (hr : r < config.ip_services.length - 1) :
    get_ip_service results config r =
      config.ip_services[(if r < i then r else r + 1)]? := by
  have h0 : ¬ config.ip_services.length = 0 := by omega
  have h1 : ¬ config.ip_services.length = 1 := by omega
  have hmod : r % (config.ip_services.length - 1) = r := Nat.mod_eq_of_lt hr
  simp only [get_ip_service, if_neg h0, if_neg h1, hs, hi, hmod]
  by_cases hge : r ≥ i
  · have hnlt : ¬ r < i := by omega
    rw [if_pos hge, if_neg hnlt]
  · have hlt : r < i := by omega
    rw [if_neg hge, if_pos hlt]

theorem get_ip_service_unmatched (results : UpdateIpResults) (config : Config)
    (r : Nat) (h2 : 2 ≤ config.ip_services.length)
    (hprev : results.ip_service_result.service = none ∨
      ∃ s, results.ip_service_result.service = some s ∧
        config.ip_services.findIdx? (fun p => p.1 == s) = none)
    (hr : r < config.ip_services.length) :
    get_ip_service results config r = config.ip_services[r]? := by
  have h0 : ¬ config.ip_services.length = 0 := by omega
  have h1 : ¬ config.ip_services.length = 1 := by omega
  have hmod : r % config.ip_services.length = r := Nat.mod_eq_of_lt hr
  rcases hprev with hs | ⟨s, hs, hi⟩
  · simp only [get_ip_service, if_neg h0, if_neg h1, hs, hmod]
  · simp only [get_ip_service, if_neg h0, if_neg h1, hs, hi, hmod]

/-- C1: with at least two endpoints and the prior service URL first matching
at index i, every draw r below n - 1 selects the endpoint at index r when
r < i and at index r + 1 otherwise, an index never equal to i; the remap is
injective over the draws and reaches every index other than i, so a uniform
draw is a uniform choice over the remaining endpoints; with no prior service
or no matching URL, every draw r below n selects the endpoint at index r. -/
theorem c1_get_ip_service_anti_repeat (results : UpdateIpResults)
    (config : Config) (h2 : 2 ≤ config.ip_services.length) :
    (∀ s i, results.ip_service_result.service = some s →
      config.ip_services.findIdx? (fun p => p.1 == s) = some i →
      (∀ r, r < config.ip_services.length - 1 →
        get_ip_service results config r =
          config.ip_services[(if r < i then r else r + 1)]? ∧
        (if r < i then r else r + 1) ≠ i) ∧
      (∀ r1 r2, r1 < config.ip_services.length - 1 →
        r2 < config.ip_services.length - 1 →
        (if r1 < i then r1 else r1 + 1) = (if r2 < i then r2 else r2 + 1) →
        r1 = r2) ∧
      (∀ j, j < config.ip_services.length → j ≠ i →
        ∃ r, r < config.ip_services.length - 1 ∧
          (if r < i then r else r + 1) = j)) ∧
    ((results.ip_service_result.service = none ∨
      ∃ s, results.ip_service_result.service = some s ∧
        config.ip_services.findIdx? (fun p => p.1 == s) = none) →
      ∀ r, r < config.ip_services.length →
        get_ip_service results config r = config.ip_services[r]?) := by
  constructor
  · intro s i hs hi
    have hilt : i < config.ip_services.length :=
      (List.findIdx?_eq_some_iff_getElem.mp hi).1
    refine ⟨?_, ?_, ?_⟩
    · intro r hr
      refine ⟨get_ip_service_matched results config s i r h2 hs hi hr, ?_⟩
      by_cases hlt : r < i
      · rw [if_pos hlt]; omega
      · rw [if_neg hlt]; omega
    · intro r1 r2 ha1 ha2 heq
      by_cases hb1 : r1 < i <;> by_cases hb2 : r2 < i
      · rw [if_pos hb1, if_pos hb2] at heq; omega
      · rw [if_pos hb1, if_neg hb2] at heq; omega
      · rw [if_neg hb1, if_pos hb2] at heq; omega
      · rw [if_neg hb1, if_neg hb2] at heq; omega
    · intro j hj hji
      by_cases hc : j < i
      · exact ⟨j, by omega, by rw [if_pos hc]⟩
      · refine ⟨j - 1, by omega, ?_⟩
        have hnc : ¬ (j - 1 < i) := by omega
        rw [if_neg hnc]
        omega
  · intro hprev r hr
    exact get_ip_service_unmatched results config r h2 hprev hr

/-- Witness for C1: three endpoints, prior service is the middle one, draw 1
remaps to index 2, never re-selecting index 1. -/
theorem c1_get_ip_service_anti_repeat_witness :
    get_ip_service
      (UpdateIpResults.mk (IpServiceResult.mk (some "b") none none false []))
      (Config.mk [("a", "t"), ("b", "t"), ("c", "t")]) 1 = some ("c", "t") ∧
    (2 : Nat) ≠ 1 := by
  have h := ((c1_get_ip_service_anti_repeat
    (UpdateIpResults.mk (IpServiceResult.mk (some "b") none none false []))
    (Config.mk [("a", "t"), ("b", "t"), ("c", "t")]) (by decide)).1 "b" 1 rfl
    (by decide)).1 1 (by decide)
  simpa using h

/-- C2: the change detector is true iff both addresses are present and differ
under exact case-sensitive string comparison, true when the prior address is
absent and the new one present, and false whenever the new address is
absent. -/
theorem c2_has_address_changed_cases (results : UpdateIpResults)
    (isr : IpServiceResult) :
    (∀ p c, results.ip_service_result.address = some p → isr.address = some c →
      (has_address_changed results isr = true ↔ p ≠ c)) ∧
    (∀ c, results.ip_service_result.address = none → isr.address = some c →
      has_address_changed results isr = true) ∧
    (isr.address = none → has_address_changed results isr = false) := by
  refine ⟨?_, ?_, ?_⟩
  · intro p c hp hc
    simp [has_address_changed, hp, hc]
  · intro c hp hc
    simp [has_address_changed, hp, hc]
  · intro hc
    cases hp : results.ip_service_result.address <;>
      simp [has_address_changed, hp, hc]

/-- Witness for C2: two differing concrete addresses give true. -/
theorem c2_has_address_changed_cases_witness :
    has_address_changed
      (UpdateIpResults.mk (IpServiceResult.mk none (some "1.2.3.4") none false []))
      (IpServiceResult.mk none (some "1.2.3.5") none false []) = true :=
  ((c2_has_address_changed_cases _ _).1 "1.2.3.4" "1.2.3.5" rfl rfl).mpr
    (by decide)

/-- C3: the new run result carries prevAddress forward from the prior run:
it equals the prior address when that is present, and the prior run own
prevAddress otherwise, for every selection and lookup outcome. -/
theorem c3_request_ip_prev_address (outcome : Except String String)
    (draw : Nat) (results : UpdateIpResults) (config : Config) :
    (request_ip outcome draw results config).prev_address =
      match results.ip_service_result.address with
      | some a => some a
      | none => results.ip_service_result.prev_address := by
  cases hg : get_ip_service results config draw with
  | none =>
    cases ha : results.ip_service_result.address <;>
      simp [request_ip, hg, ha, IpServiceResult.new]
  | some p =>
    obtain ⟨svc, rt⟩ := p
    cases outcome <;> cases ha : results.ip_service_result.address <;>
      simp [request_ip, hg, ha, request_address_as_response_body,
        IpServiceResult.new]

/-- C6: the selector returns none on an empty endpoint list, and on a
singleton list returns the sole endpoint for every history and draw. -/
theorem c6_get_ip_service_small_lists (results : UpdateIpResults)
    (config : Config) (draw : Nat) :
    (config.ip_services = [] → get_ip_service results config draw = none) ∧
    (∀ e, config.ip_services = [e] →
      get_ip_service results config draw = some e) := by
  exact ⟨get_ip_service_nil results config draw,
    fun e => get_ip_service_singleton results config draw e⟩

/-- Witness for C6 on an empty and on a singleton endpoint list. -/
theorem c6_get_ip_service_small_lists_witness :
    get_ip_service (UpdateIpResults.mk IpServiceResult.new)
      (Config.mk []) 0 = none ∧
    get_ip_service (UpdateIpResults.mk IpServiceResult.new)
      (Config.mk [("https://api.ipify.org", "address_as_body")]) 5 =
      some ("https://api.ipify.org", "address_as_body") :=
  ⟨(c6_get_ip_service_small_lists _ (Config.mk []) 0).1 rfl,
    (c6_get_ip_service_small_lists _ _ 5).2 _ rfl⟩

/-- C4: when no address can be obtained the run still returns a well-formed
result: with an empty endpoint list the address is none, addressChanged is
false and the errors are exactly the failed-to-find-ip-service string; with
a transport error the address is none, addressChanged is false and the
errors are nonempty; and the address is some a only when the lookup outcome
was the successful address a. -/
theorem c4_request_ip_failure_wellformed (outcome : Except String String)
    (draw : Nat) (results : UpdateIpResults) (config : Config) :
    (config.ip_services = [] →
      (request_ip outcome draw results config).address = none ∧
      (request_ip outcome draw results config).address_changed = false ∧
      (request_ip outcome draw results config).errors =
        ["failed to find ip service"]) ∧
    (∀ e, outcome = Except.error e →
      (request_ip outcome draw results config).address = none ∧
      (request_ip outcome draw results config).address_changed = false ∧
      (request_ip outcome draw results config).errors ≠ []) ∧
    (∀ a, (request_ip outcome draw results config).address = some a →
      outcome = Except.ok a) := by
  refine ⟨?_, ?_, ?_⟩
  · intro h
    have hg := get_ip_service_nil results config draw h
    simp [request_ip, hg, IpServiceResult.new]
  · rintro e rfl
    cases hg : get_ip_service results config draw with
    | none => simp [request_ip, hg, IpServiceResult.new]
    | some p =>
      obtain ⟨svc, rt⟩ := p
      cases ha : results.ip_service_result.address <;>
        simp [request_ip, hg, ha, request_address_as_response_body,
          has_address_changed, IpServiceResult.new]
  · intro a ha
    cases hg : get_ip_service results config draw with
    | none => simp [request_ip, hg, IpServiceResult.new] at ha
    | some p =>
      obtain ⟨svc, rt⟩ := p
      cases outcome with
      | ok addr =>
        simp [request_ip, hg, request_address_as_response_body,
          IpServiceResult.new] at ha
        rw [ha]
      | error e =>
        simp [request_ip, hg, request_address_as_response_body,
          IpServiceResult.new] at ha

/-- Witness for C4 on the empty endpoint list. -/
theorem c4_request_ip_failure_wellformed_witness :
    (request_ip (Except.error "net down") 0
      (UpdateIpResults.mk IpServiceResult.new) (Config.mk [])).address = none ∧
    (request_ip (Except.error "net down") 0
      (UpdateIpResults.mk IpServiceResult.new)
      (Config.mk [])).address_changed = false ∧
    (request_ip (Except.error "net down") 0
      (UpdateIpResults.mk IpServiceResult.new) (Config.mk [])).errors =
      ["failed to find ip service"] :=
  (c4_request_ip_failure_wellformed (Except.error "net down") 0
    (UpdateIpResults.mk IpServiceResult.new) (Config.mk [])).1 rfl

/-- C7: change detection compares the prior address field, not the carried
prevAddress: a prior run with address none and prevAddress some a, followed
by a lookup resolving the same a, yields addressChanged true. -/
theorem c7_change_detection_ignores_prev_address (results : UpdateIpResults)
    (config : Config) (draw : Nat) (a : String)
    (haddr : results.ip_service_result.address = none)
    (hprev : results.ip_service_result.prev_address = some a)
    (hne : config.ip_services ≠ []) :
    (request_ip (Except.ok a) draw results config).address_changed = true := by
  obtain ⟨p, hp⟩ := get_ip_service_some_of_ne_nil results config draw hne
  obtain ⟨svc, rt⟩ := p
  simp [request_ip, hp, haddr, request_address_as_response_body,
    has_address_changed, IpServiceResult.new]

/-- Witness for C7: prevAddress already records the resolved address, yet
the run reports a change. -/
theorem c7_change_detection_ignores_prev_address_witness :
    (request_ip (Except.ok "203.0.113.5") 0
      (UpdateIpResults.mk
        (IpServiceResult.mk none none (some "203.0.113.5") false []))
      (Config.mk
        [("https://api.ipify.org", "address_as_body")])).address_changed =
      true :=
  c7_change_detection_ignores_prev_address _ _ 0 "203.0.113.5" rfl rfl
    (by decide)

/-- C8: host-and-authority is none exactly when the URI has no host;
otherwise it pairs the host with host:port, where port is the explicit
port when present, 80 for scheme http with no explicit port, and 443 for
any other or absent scheme with no explicit port. -/
theorem c8_create_host_and_authority_spec (uri : Uri) :
    (create_host_and_authority uri = none ↔ uri.host = none) ∧
    (∀ h, uri.host = some h →
      create_host_and_authority uri = some (h, h ++ ":" ++
        (match uri.port with
         | some p => toString p
         | none => if uri.scheme = some "http" then "80" else "443"))) := by
  constructor
  · cases hh : uri.host with
    | none => simp [create_host_and_authority, hh]
    | some h => simp [create_host_and_authority, hh]
  · intro h hh
    cases hp : uri.port with
    | some p => simp [create_host_and_authority, hh, hp]
    | none =>
      cases hsch : uri.scheme with
      | none => simp [create_host_and_authority, hh, hp, hsch]
      | some s =>
        by_cases hs : s = "http"
        · subst hs
          simp [create_host_and_authority, hh, hp, hsch]
        · simp only [create_host_and_authority, hh, hp, hsch, if_neg hs]
          split <;> simp_all

/-- Witness for C8: a host with scheme http and no explicit port defaults
to port 80. -/
theorem c8_create_host_and_authority_spec_witness :
    create_host_and_authority (Uri.mk (some "example.com") (some "http") none) =
      some ("example.com", "example.com:80") := by
  have h := (c8_create_host_and_authority_spec
    (Uri.mk (some "example.com") (some "http") none)).2 "example.com" rfl
  simpa using h

theorem get_headers_loop_eq_filterMap (hs : List (String × Option String)) :
    get_headers_loop hs =
      hs.filterMap (fun kv => kv.2.map (fun v => (kv.1, v))) := by
  induction hs with
  | nil => rfl
  | cons kv rest ih =>
    obtain ⟨k, v⟩ := kv
    cases v <;> simp [get_headers_loop, ih, List.filterMap_cons]

theorem get_headers_loop_skip (pre post : List (String × Option String))
    (k : String) :
    get_headers_loop (pre ++ (k, none) :: post) =
      get_headers_loop (pre ++ post) := by
  induction pre with
  | nil => simp [get_headers_loop]
  | cons kv rest ih =>
    obtain ⟨k2, v2⟩ := kv
    cases v2 <;> simp [get_headers_loop, ih]

/-- C10: header extraction keeps exactly the headers whose value is
representable as text, in the original response order, and a header with a
non-text value is skipped without affecting the others. -/
theorem c10_get_headers_text_only (res : Response) :
    get_headers res =
      res.headers.filterMap (fun kv => kv.2.map (fun v => (kv.1, v))) ∧
    (∀ pre post k,
      get_headers_loop (pre ++ (k, (none : Option String)) :: post) =
        get_headers_loop (pre ++ post)) := by
  exact ⟨get_headers_loop_eq_filterMap res.headers,
    fun pre post k => get_headers_loop_skip pre post k⟩

theorem head?_dropWhile_eq_some (p : Char → Bool) (l : List Char) (c : Char)
    (h : (l.dropWhile p).head? = some c) : p c = false := by
  have h2 := List.head?_dropWhile_not p l
  rw [h] at h2
  exact h2

theorem reverse_split (l : List Char) (p : Char → Bool) :
    l = (l.reverse.dropWhile p).reverse ++ (l.reverse.takeWhile p).reverse := by
  rw [← List.reverse_append, List.takeWhile_append_dropWhile,
    List.reverse_reverse]

theorem strTrim_decomp (s : String) :
    ∃ pre post, s.data = pre ++ (strTrim s).data ++ post ∧
      (∀ c ∈ pre, c.isWhitespace = true) ∧
      (∀ c ∈ post, c.isWhitespace = true) := by
  refine ⟨s.data.takeWhile Char.isWhitespace,
    ((s.data.dropWhile Char.isWhitespace).reverse.takeWhile
      Char.isWhitespace).reverse, ?_, ?_, ?_⟩
  · conv_lhs =>
      rw [← List.takeWhile_append_dropWhile (p := Char.isWhitespace)
        (l := s.data)]
    rw [List.append_assoc]
    congr 1
    exact reverse_split (s.data.dropWhile Char.isWhitespace) Char.isWhitespace
  · intro c hc
    exact List.all_eq_true.mp List.all_takeWhile c hc
  · intro c hc
    rw [List.mem_reverse] at hc
    exact List.all_eq_true.mp List.all_takeWhile c hc

theorem strTrim_head_not_white (s : String) (c : Char)
    (h : (strTrim s).data.head? = some c) : c.isWhitespace = false := by
  have hd : ((s.data.dropWhile Char.isWhitespace).reverse.dropWhile
      Char.isWhitespace).reverse.head? = some c := h
  have hl1 : (s.data.dropWhile Char.isWhitespace).head? = some c := by
    conv_lhs =>
      rw [reverse_split (s.data.dropWhile Char.isWhitespace)
        Char.isWhitespace]
    rw [List.head?_append, hd]
    rfl
  exact head?_dropWhile_eq_some Char.isWhitespace s.data c hl1

theorem strTrim_last_not_white (s : String) (c : Char)
    (h : (strTrim s).data.getLast? = some c) : c.isWhitespace = false := by
  have hd : ((s.data.dropWhile Char.isWhitespace).reverse.dropWhile
      Char.isWhitespace).reverse.getLast? = some c := h
  rw [List.getLast?_reverse] at hd
  exact head?_dropWhile_eq_some Char.isWhitespace
    (s.data.dropWhile Char.isWhitespace).reverse c hd

/-- C9: on a successfully aggregated and read body the function returns the
body trimmed of leading and trailing whitespace: the original body splits
as whitespace, the returned text, whitespace, and the returned text neither
starts nor ends with whitespace; on an aggregation or read failure it
returns the error string. -/
theorem c9_response_body_to_string_spec (resp : Response) :
    (∀ s, resp.body = BodyOutcome.text s →
      response_body_to_string resp = Except.ok (strTrim s)) ∧
    (∀ e, resp.body = BodyOutcome.collectErr e ∨
        resp.body = BodyOutcome.readErr e →
      response_body_to_string resp = Except.error e) ∧
    (∀ s, resp.body = BodyOutcome.text s →
      ∃ pre post, s.data = pre ++ (strTrim s).data ++ post ∧
        (∀ c ∈ pre, c.isWhitespace = true) ∧
        (∀ c ∈ post, c.isWhitespace = true) ∧
        (∀ c, (strTrim s).data.head? = some c → c.isWhitespace = false) ∧
        (∀ c, (strTrim s).data.getLast? = some c →
          c.isWhitespace = false)) := by
  refine ⟨?_, ?_, ?_⟩
  · intro s hb
    simp [response_body_to_string, hb]
  · rintro e (hb | hb) <;> simp [response_body_to_string, hb]
  · intro s hb
    obtain ⟨pre, post, hsplit, hpre, hpost⟩ := strTrim_decomp s
    exact ⟨pre, post, hsplit, hpre, hpost,
      fun c hc => strTrim_head_not_white s c hc,
      fun c hc => strTrim_last_not_white s c hc⟩

/-- Witness for C9: a body with surrounding whitespace is returned as the
bare address string. -/
theorem c9_response_body_to_string_spec_witness :
    response_body_to_string
      (Response.mk (BodyOutcome.text " 1.2.3.4\n") [] 200) =
      Except.ok "1.2.3.4" := by
  have h := (c9_response_body_to_string_spec
    (Response.mk (BodyOutcome.text " 1.2.3.4\n") [] 200)).1 " 1.2.3.4\n" rfl
  rw [h]
  have ht : strTrim " 1.2.3.4\n" = "1.2.3.4" := by decide
  rw [ht]

/-- C5: at the spec test vector the returned update URL is built verbatim
from the service domain, hostname and address parameters, the intended
Basic-auth value for username u and password p is exactly Basic dTpw, and
the value the source actually returns is independent of the username and
password parameters, which its auth computation never names (it references
an out-of-scope domain value instead). -/
theorem c5_dyndns2_request_eval :
    get_https_dyndns2_subset_request "members.dyndns.org" "203.0.113.5"
      "host.example.com" "u" "p" =
      "https://members.dyndns.org/nic/update?hostname=host.example.com&myip=203.0.113.5" ∧
    dyndns2_basic_auth "u" "p" = "Basic dTpw" ∧
    (∀ sd ip hn u1 p1 u2 p2,
      get_https_dyndns2_subset_request sd ip hn u1 p1 =
        get_https_dyndns2_subset_request sd ip hn u2 p2) := by
  refine ⟨rfl, by decide, ?_⟩
  intro sd ip hn u1 p1 u2 p2
  rfl
